import Mathlib

/-!
Verification of the gocbanalytics query execution subsystem.

This file gives a shallow embedding, in Lean 4, of the retry/classification
core of the couchbase/gocbanalytics Go client:

* `internal/httpqueryclient/query.go` — `Client.Query` (the attempt loop),
  `parseAnalyticsErrorResponse`, `isAnalyticsErrorRetriable`,
  `handleMaybeRetryAnalytics`, `analyticsExponentialBackoffWithJitter`;
* `internal/httpqueryclient/error.go` — the `QueryError` structure and the
  sentinel errors, with Go's `errors.Is` / `errors.As` unwrap-chain semantics;
* `client_query.go` — `translateClientError` and the public error taxonomy
  of `error.go` in the root package.

Modelling conventions:

* Wall-clock instants and durations are `Int` nanoseconds; a Go zero
  `time.Time` deadline is `Option.none`.
* Payload maps (`map[string]interface{}`) are association lists
  `List (String × JValue)`; the Go code only ever inspects payload values
  through a string type assertion, so `JValue` distinguishes strings from
  all other JSON values (kept opaque with a tag).
* HTTP dispatch, RNG draws and clock reads are oracle inputs: one
  `AttemptEnv` per loop iteration, consumed left to right.
* `time.Sleep` is not modelled (it does not change any state the claims
  speak about).
-/

namespace Gocbanalytics

/-- A JSON value stored in a query payload.  The Go code handles payload
values as opaque `interface\x7b\x7d` entries and only ever inspects them via a
string type assertion (`st.(string)` in `Client.Query`, `val.(string)` in
`getMapValueString`), so the embedding keeps strings concrete and all
other JSON values opaque behind a tag. -/
inductive JValue where
  | str (s : String)
  | other (tag : String)
deriving DecidableEq, Repr

/-- A query payload: the content of the Go `map[string]interface\x7b\x7d`,
as an association list (first binding of a key wins). -/
abbrev Payload := List (String × JValue)

/-- Map lookup on a payload. -/
def payloadGet (p : Payload) (k : String) : Option JValue :=
  List.lookup k p

/-- Map update on a payload: `payload[k] = v` in Go. -/
def payloadSet (p : Payload) (k : String) (v : JValue) : Payload :=
  (k, v) :: p.filter (fun kv => kv.1 ≠ k)

/-- `ErrorDesc` from `internal/httpqueryclient/error.go`: one server error
descriptor `(Code uint32, Message string, Retry bool)`. -/
structure ErrorDesc where
  code : Nat
  message : String
  retry : Bool
deriving DecidableEq, Repr

/-- `jsonAnalyticsError` from `internal/httpqueryclient/json.go`: one entry
of the wire-level `errors` array, `(code uint32, msg string, retriable bool)`. -/
structure JsonAnalyticsError where
  code : Nat
  msg : String
  retry : Bool
deriving DecidableEq, Repr

/-- The sentinel errors that the code compares against with `errors.Is`. -/
inductive Sentinel where
  | analytics
  | invalidCredential
  | timeout
  | serviceUnavailable
  | canceled
  | deadlineExceeded
deriving DecidableEq, Repr

/-- Go error values flowing through the client layer, flattened into one
inductive.  Constructors:

* `nilErr` — the Go `nil` error;
* the sentinel errors of `internal/httpqueryclient/error.go` plus the two
  `context` package errors;
* `contextDeadlineWouldBeExceeded` — `ErrContextDeadlineWouldBeExceeded`,
  built with `fmt.Errorf("...: %w", context.DeadlineExceeded)`, so its
  unwrap chain reaches `context.DeadlineExceeded`;
* `obfuscate` — `obfuscateErrorWrapper`, which deliberately has NO
  `Unwrap` method, so `errors.Is`/`errors.As` do not see through it;
* `wrapped` — a `fmt.Errorf` `%w` wrapper (unwraps to its inner error);
* `transport` — an error returned by `http.Client.Do` (a `*url.Error`,
  which unwraps to its cause); `cause` is `nilErr` when no cause is
  distinguished;
* `parseFailure` — a `json.Unmarshal` / `time.ParseDuration` failure;
* `noErrorsInBody` — `errors.New("query returned non-200 status code but
  no errors in body")`;
* `queryError` — `*QueryError` of `internal/httpqueryclient/error.go`,
  with its fields in declaration order `(InnerError, Statement, Errors,
  LastErrorCode, LastErrorMsg, Endpoint, ErrorText, HTTPResponseCode)`;
  its `Unwrap` returns `InnerError`. -/
inductive GoErr where
  | nilErr
  | analytics
  | invalidCredential
  | timeout
  | serviceUnavailable
  | contextCanceled
  | contextDeadlineExceeded
  | contextDeadlineWouldBeExceeded
  | obfuscate (msg : String) (inner : GoErr)
  | wrapped (msg : String) (inner : GoErr)
  | transport (tag : String) (cause : GoErr)
  | parseFailure (tag : String)
  | noErrorsInBody
  | queryError (inner : GoErr) (statement : String) (errs : List ErrorDesc)
      (lastCode : Nat) (lastMsg : String) (endpoint : String)
      (errorText : String) (status : Nat)
deriving DecidableEq, Repr

/-- Go `errors.Is e target` for the sentinel targets used in this code
base: identity at each chain node, following `Unwrap`.
`obfuscateErrorWrapper` has no `Unwrap`, so the chain stops there. -/
def goErrIs : GoErr → Sentinel → Bool
  | .analytics, .analytics => true
  | .invalidCredential, .invalidCredential => true
  | .timeout, .timeout => true
  | .serviceUnavailable, .serviceUnavailable => true
  | .contextCanceled, .canceled => true
  | .contextDeadlineExceeded, .deadlineExceeded => true
  | .contextDeadlineWouldBeExceeded, .deadlineExceeded => true
  | .wrapped _ i, t => goErrIs i t
  | .transport _ c, t => goErrIs c t
  | .queryError i _ _ _ _ _ _ _, t => goErrIs i t
  | _, _ => false

/-- `newAnalyticsError` from `internal/httpqueryclient/error.go`:
a `QueryError` with empty `Errors`, zero last detail and empty text. -/
def newAnalyticsError (inner : GoErr) (statement endpoint : String)
    (status : Nat) : GoErr :=
  .queryError inner statement [] 0 "" endpoint "" status

/-- `QueryError.withErrorText`. Identity on non-`QueryError` values
(the Go method only exists on `QueryError`). -/
def withErrorText : GoErr → String → GoErr
  | .queryError i s e lc lm ep _ st, t => .queryError i s e lc lm ep t st
  | e, _ => e

/-- `QueryError.withLastDetail`. -/
def withLastDetail : GoErr → Nat → String → GoErr
  | .queryError i s e _ _ ep et st, c, m => .queryError i s e c m ep et st
  | e, _, _ => e

/-- `QueryError.withErrors`. -/
def withErrors : GoErr → List ErrorDesc → GoErr
  | .queryError i s _ lc lm ep et st, e => .queryError i s e lc lm ep et st
  | e, _ => e

/-- The `Errors` field of a `QueryError` (empty for other errors). -/
def errsOf : GoErr → List ErrorDesc
  | .queryError _ _ e _ _ _ _ _ => e
  | _ => []

/-- The `InnerError` field of a `QueryError` (`nilErr` for other errors). -/
def innerOf : GoErr → GoErr
  | .queryError i _ _ _ _ _ _ _ => i
  | _ => .nilErr

/-- The parse outcome of an HTTP error response body, abstracting the two
`json.Unmarshal` calls of `parseAnalyticsErrorResponse`
(`internal/httpqueryclient/query.go`):

* `malformed` — the body is not a JSON object (outer unmarshal into
  `jsonAnalyticsErrorResponse` fails);
* `noErrors` — the outer unmarshal succeeds and the raw `errors` member is
  absent (zero-length `json.RawMessage`);
* `badErrorsField` — the `errors` member is present but does not unmarshal
  into `[]jsonAnalyticsError`;
* `withErrors` — the `errors` member unmarshals to the given (possibly
  empty) array.

Each case carries the raw body text (`string(respBody)` in Go). -/
inductive RespBody where
  | malformed (text : String)
  | noErrors (text : String)
  | badErrorsField (text : String)
  | withErrors (text : String) (errs : List JsonAnalyticsError)
deriving DecidableEq, Repr

/-- The raw text of a response body. -/
def respBodyText : RespBody → String
  | .malformed t => t
  | .noErrors t => t
  | .badErrorsField t => t
  | .withErrors t _ => t

/-- `parseAnalyticsErrorResponse` from `internal/httpqueryclient/query.go`
(lines 248–296).  Returns `none` exactly where the Go function returns a
nil `*QueryError`. -/
def parseAnalyticsErrorResponse (respBody : RespBody)
    (statement endpoint : String) (statusCode : Nat)
    (lastCode : Nat) (lastMsg : String) : Option GoErr :=
  if statusCode = 401 then
    some (newAnalyticsError .invalidCredential statement endpoint statusCode)
  else
    match respBody with
    | .malformed t =>
        some (withErrorText
          (withLastDetail
            (newAnalyticsError
              (.obfuscate "failed to parse response errors" (.parseFailure t))
              statement endpoint statusCode)
            lastCode lastMsg)
          t)
    | .noErrors _ =>
        if statusCode = 503 then
          some (newAnalyticsError .serviceUnavailable statement endpoint statusCode)
        else
          none
    | .badErrorsField t =>
        some (withErrorText
          (withLastDetail
            (newAnalyticsError
              (.obfuscate "failed to parse response errors" (.parseFailure t))
              statement endpoint statusCode)
            lastCode lastMsg)
          t)
    | .withErrors t errs =>
        if errs.isEmpty then
          none
        else
          let errDescs : List ErrorDesc :=
            errs.map (fun je => ⟨je.code, je.msg, je.retry⟩)
          some (withErrors
            (withErrorText
              (withLastDetail
                (newAnalyticsError .analytics statement endpoint statusCode)
                lastCode lastMsg)
              t)
            errDescs)

/-- `isAnalyticsErrorRetriable` from `internal/httpqueryclient/query.go`
(lines 298–335).  Returns the pair `(first, retriable)`: Go returns
`(nil, true)` for a service-unavailable error, `(nil, false)` when the
error list is empty or contains a non-retriable entry, and
`(&Errors[0], true)` when the non-empty list is all-retriable. -/
def isAnalyticsErrorRetriable (cErr : GoErr) : Option ErrorDesc × Bool :=
  if goErrIs cErr .serviceUnavailable then
    (none, true)
  else
    match errsOf cErr with
    | [] => (none, false)
    | e0 :: es =>
        if (e0 :: es).all (fun d => d.retry) then
          (some e0, true)
        else
          (none, false)

/-- Go's `time.Duration.String` rendering of a nanosecond count, abstracted
to an injective rendering (`"<n>ns"`).  Go's actual rendering uses compound
units (`"1h2m3s"`) but is likewise injective; no claim in this development
depends on the exact text, only on which payload key receives it. -/
def durationString (n : Int) : String :=
  toString n ++ "ns"

/-- `handleMaybeRetryAnalytics` from `internal/httpqueryclient/query.go`
(lines 337–370).  `ctxDeadline` / `serverDeadline` are `none` where the Go
`time.Time` is zero; `b` is the already-computed backoff `calc(retries)`;
`now1` and `now2` are the two `time.Now()` reads (first in the caller
deadline check, second in the server deadline arithmetic).  Returns
`.error e` where Go returns `(nil, e)`, and `.ok body` where Go returns
`(body, nil)` — `body = none` models the nil byte slice returned when no
server deadline is set.  The final `time.Sleep(b)` is not modelled. -/
def handleMaybeRetryAnalytics (ctxDeadline serverDeadline : Option Int)
    (b : Int) (now1 now2 : Int) (payload : Payload) :
    Except GoErr (Option Payload) :=
  let serverCheck : Except GoErr (Option Payload) :=
    match serverDeadline with
    | some sd =>
        let serverTimeout := sd - (now2 + b)
        if serverTimeout < 0 then
          .error .timeout
        else
          .ok (some (payloadSet payload "timeout"
            (.str (durationString serverTimeout))))
    | none => .ok none
  match ctxDeadline with
  | some cd =>
      if cd - b < now1 + b then
        .error .contextDeadlineWouldBeExceeded
      else
        serverCheck
  | none => serverCheck

/-- `analyticsExponentialBackoffWithJitter` from
`internal/httpqueryclient/query.go` (lines 374–408), with the float64
arithmetic carried out over `ℚ`.  `randVal` is the `rand.Float64()` draw
for this invocation (in `[0, 1)`).  The defaulted bounds are the Go
constants 1 ms and 500 ms in nanoseconds; `Client.Query` instantiates
`min = 100 ms`, `max = 1 min`, `factor = 2`. -/
def analyticsExponentialBackoffWithJitter (minD maxD factor : ℚ)
    (randVal : ℚ) (retryAttempts : Nat) : ℚ :=
  let minBackoff : ℚ := if 0 < minD then minD else 1000000
  let maxBackoff : ℚ := if 0 < maxD then maxD else 500000000
  let f : ℚ := if 0 < factor then factor else 2
  let backoff0 : ℚ := minBackoff * f ^ retryAttempts
  let backoff1 : ℚ := randVal * backoff0
  let backoff2 : ℚ := if maxBackoff < backoff1 then maxBackoff else backoff1
  if backoff2 < minBackoff then minBackoff else backoff2

/-- The observable outcome of dispatching one attempt, supplied by the
environment oracle.  Each constructor names the branch of `Client.Query`
(`internal/httpqueryclient/query.go`, lines 99–236) the response falls in:

* `transportErr err cde` — `innerClient.Do` returned `err`; `cde` is the
  value of `connectDoneErr` captured by the `httptrace.ClientTrace`
  `ConnectDone` hook (`nilErr` when the hook never fired, or fired with a
  nil error, i.e. the dial succeeded);
* `httpError status body` — a response with `status < 200 ∨ 300 ≤ status`
  whose body read to `body`;
* `successRows status` — a 2xx response whose streamer yields a first row
  (or whose empty trailer carries no server error after a nil peek falls
  through);
* `successEmpty status meta` — a 2xx response with no rows whose trailing
  metadata bytes parse per `meta`;
* `earlyFailure e` — any of the immediate-return failure branches
  (request construction, body read, streamer construction, streamer error,
  metadata extraction), all of which return the given error without
  retrying. -/
inductive AttemptOutcome where
  | transportErr (err : GoErr) (cde : GoErr)
  | httpError (status : Nat) (body : RespBody)
  | successRows (status : Nat)
  | successEmpty (status : Nat) (meta : RespBody)
  | earlyFailure (e : GoErr)
deriving DecidableEq, Repr

/-- The oracle data for one loop iteration: the `rand.Intn` endpoint draw
(`pick`, reduced modulo the list length), the dispatch outcome, the
backoff draw `backoff = calc(retries)` and the two `time.Now()` reads of
`handleMaybeRetryAnalytics`. -/
structure AttemptEnv where
  pick : Nat
  outcome : AttemptOutcome
  backoff : Int
  now1 : Int
  now2 : Int
deriving DecidableEq, Repr

/-- The mutable state of the `Client.Query` attempt loop
(`internal/httpqueryclient/query.go`, lines 51–75): the candidate address
list, the payload map (mutated in place by `handleMaybeRetryAnalytics`),
the content of the marshalled `body` bytes (`none` models a nil slice),
and the `retries` / `lastCode` / `lastMessage` / `lastRootErr` locals. -/
structure LoopState where
  addrs : List String
  payload : Payload
  bodyPayload : Option Payload
  retries : Nat
  lastCode : Nat
  lastMessage : String
  lastRootErr : GoErr
deriving DecidableEq, Repr

/-- What `Client.Query` returns: a row reader, or a fatal error. -/
inductive QueryResult where
  | reader
  | fatal (e : GoErr)
deriving DecidableEq, Repr

/-- The effect of one loop iteration: terminate with a result, or continue
with an updated state. -/
inductive StepRes where
  | done (r : QueryResult)
  | next (st : LoopState)
deriving DecidableEq, Repr

/-- One iteration of the `Client.Query` attempt loop
(`internal/httpqueryclient/query.go`, lines 68–245), after the
`len(addrs) == 0` check which the driver `queryLoop` performs.  Mirrors,
per `AttemptOutcome` constructor:

* the transport-error branch (lines 100–127): fatal when no dial error
  was recorded and the error is the caller's cancellation or deadline;
  otherwise the retry controller runs, the attempted endpoint is removed,
  and `lastRootErr` retains either the dial error or the wrapped send
  failure;
* the non-2xx branch (lines 132–174): parse, classify, and either return
  the classified error, retry (without touching the address list), or
  report that the body carried no errors;
* the 2xx branches (lines 176–244): success, or the empty-response
  trailer classified like the non-2xx branch. -/
def queryStep (ctxDeadline serverDeadline : Option Int)
    (statement host : String) (st : LoopState) (env : AttemptEnv) : StepRes :=
  let idx := env.pick % st.addrs.length
  match env.outcome with
  | .transportErr err cde =>
      if cde = .nilErr ∧ (goErrIs err .canceled ∨ goErrIs err .deadlineExceeded) then
        .done (.fatal (newAnalyticsError err statement host 0))
      else
        match handleMaybeRetryAnalytics ctxDeadline serverDeadline
            env.backoff env.now1 env.now2 st.payload with
        | .error notRetriableErr =>
            .done (.fatal (withLastDetail
              (newAnalyticsError notRetriableErr statement host 0)
              st.lastCode st.lastMessage))
        | .ok newBody =>
            .next { addrs := st.addrs.eraseIdx idx
                    payload := newBody.getD st.payload
                    bodyPayload := newBody
                    retries := st.retries + 1
                    lastCode := st.lastCode
                    lastMessage := st.lastMessage
                    lastRootErr :=
                      if cde = .nilErr then
                        .obfuscate "failed to send request" err
                      else cde }
  | .httpError status body =>
      match parseAnalyticsErrorResponse body statement host status
          st.lastCode st.lastMessage with
      | some cErr =>
          let fr := isAnalyticsErrorRetriable cErr
          if !fr.2 then
            .done (.fatal cErr)
          else
            let lastCode' := match fr.1 with
              | some f => f.code
              | none => st.lastCode
            let lastMessage' := match fr.1 with
              | some f => f.message
              | none => st.lastMessage
            match handleMaybeRetryAnalytics ctxDeadline serverDeadline
                env.backoff env.now1 env.now2 st.payload with
            | .error e =>
                .done (.fatal (withLastDetail
                  (withErrorText
                    (withErrors (newAnalyticsError e statement host status)
                      (errsOf cErr))
                    (respBodyText body))
                  lastCode' lastMessage'))
            | .ok newBody =>
                .next { addrs := st.addrs
                        payload := newBody.getD st.payload
                        bodyPayload := newBody
                        retries := st.retries + 1
                        lastCode := lastCode'
                        lastMessage := lastMessage'
                        lastRootErr := cErr }
      | none =>
          .done (.fatal (withLastDetail
            (withErrorText (newAnalyticsError .noErrorsInBody statement host status)
              (respBodyText body))
            st.lastCode st.lastMessage))
  | .successRows _ => .done .reader
  | .successEmpty status meta =>
      match parseAnalyticsErrorResponse meta statement host status
          st.lastCode st.lastMessage with
      | some cErr =>
          let fr := isAnalyticsErrorRetriable cErr
          if !fr.2 then
            .done (.fatal cErr)
          else
            let lastCode' := match fr.1 with
              | some f => f.code
              | none => st.lastCode
            let lastMessage' := match fr.1 with
              | some f => f.message
              | none => st.lastMessage
            match handleMaybeRetryAnalytics ctxDeadline serverDeadline
                env.backoff env.now1 env.now2 st.payload with
            | .error e =>
                .done (.fatal (withLastDetail
                  (withErrorText
                    (withErrors (newAnalyticsError e statement host status)
                      (errsOf cErr))
                    (respBodyText meta))
                  lastCode' lastMessage'))
            | .ok newBody =>
                .next { addrs := st.addrs
                        payload := newBody.getD st.payload
                        bodyPayload := newBody
                        retries := st.retries + 1
                        lastCode := lastCode'
                        lastMessage := lastMessage'
                        lastRootErr := cErr }
      | none => .done .reader
  | .earlyFailure e => .done (.fatal e)

/-- The fatal error returned when the candidate address list is empty
(`internal/httpqueryclient/query.go`, lines 69–71). -/
def emptyAddrsError (statement host : String) (st : LoopState) : GoErr :=
  withLastDetail (newAnalyticsError st.lastRootErr statement host 0)
    st.lastCode st.lastMessage

/-- How a run of the attempt loop ended: with a `Client.Query` return
value, or with the oracle exhausted mid-loop. -/
inductive LoopResult where
  | finished (r : QueryResult)
  | outOfFuel
deriving DecidableEq, Repr

/-- A loop run paired with the unconsumed suffix of the oracle; the number
of attempts performed is the number of consumed oracle entries. -/
structure QueryOutcome where
  result : LoopResult
  rest : List AttemptEnv
deriving DecidableEq, Repr

/-- The `Client.Query` attempt loop, driven by the oracle list: check for
an exhausted address list, then perform one `queryStep` per oracle entry
until a result is produced. -/
def queryLoop (ctxDeadline serverDeadline : Option Int)
    (statement host : String) :
    LoopState → List AttemptEnv → QueryOutcome
  | st, envs =>
      if st.addrs.isEmpty then
        ⟨.finished (.fatal (emptyAddrsError statement host st)), envs⟩
      else
        match envs with
        | [] => ⟨.outOfFuel, []⟩
        | env :: rest =>
            match queryStep ctxDeadline serverDeadline statement host st env with
            | .done r => ⟨.finished r, rest⟩
            | .next st' => queryLoop ctxDeadline serverDeadline statement host st' rest

/-- The result of code that can Go-panic. -/
inductive PanicOr (α : Type) where
  | panics (msg : String)
  | ok (a : α)
deriving DecidableEq, Repr

/-- The prologue of `Client.Query` (`internal/httpqueryclient/query.go`,
lines 27–49): the `opts.Payload["timeout"]` inspection.  `parseDuration`
abstracts Go's `time.ParseDuration` (any fixed parser; `none` = parse
error); `now` is the `time.Now()` read establishing the server deadline.
The unchecked type assertion `st.(string)` panics when the entry is
present and not a string; otherwise the function returns the server
deadline (`none` when no `timeout` entry exists) or the wrapped parse
error that `Client.Query` returns. -/
def queryPrologue (parseDuration : String → Option Int) (now : Int)
    (payload : Payload) : PanicOr (Except GoErr (Option Int)) :=
  match payloadGet payload "timeout" with
  | none => .ok (.ok none)
  | some (.str s) =>
      match parseDuration s with
      | none => .ok (.error (.obfuscate "failed to parse server timeout"
          (.parseFailure s)))
      | some d => .ok (.ok (some (now + d)))
  | some (.other _) =>
      .panics "interface conversion: interface is not string"

/-- `Client.Query` end to end (`internal/httpqueryclient/query.go`,
lines 22–246): prologue, then the single pre-loop host resolution
(`c.resolver.LookupHost`, lines 63–66, whose outcome is the `resolved`
input — resolution happens exactly once and never recurs inside the
loop), then the attempt loop started with `retries = 0`, zero last
detail, nil `lastRootErr`, and the marshalled initial payload as body. -/
def clientQuery (parseDuration : String → Option Int) (now : Int)
    (ctxDeadline : Option Int) (payload : Payload)
    (statement host : String) (resolved : Except GoErr (List String))
    (envs : List AttemptEnv) : PanicOr QueryOutcome :=
  match queryPrologue parseDuration now payload with
  | .panics m => .panics m
  | .ok (.error e) => .ok ⟨.finished (.fatal e), envs⟩
  | .ok (.ok serverDeadline) =>
      match resolved with
      | .error e =>
          .ok ⟨.finished (.fatal (newAnalyticsError
            (.wrapped "failed to lookup host" e) statement host 0)), envs⟩
      | .ok addrs =>
          .ok (queryLoop ctxDeadline serverDeadline statement host
            ⟨addrs, payload, some payload, 0, 0, "", .nilErr⟩ envs)

/-- The `Statement` field of a `QueryError` (empty for other errors). -/
def stmtOf : GoErr → String
  | .queryError _ s _ _ _ _ _ _ => s
  | _ => ""

/-- The `Endpoint` field of a `QueryError` (empty for other errors). -/
def endpointOf : GoErr → String
  | .queryError _ _ _ _ _ ep _ _ => ep
  | _ => ""

/-- The `HTTPResponseCode` field of a `QueryError` (0 for other errors). -/
def statusOf : GoErr → Nat
  | .queryError _ _ _ _ _ _ _ st => st
  | _ => 0

/-- Go `errors.As(err, &clientErr)` for `clientErr : *QueryError`: walk
the unwrap chain and return the first `QueryError` node, if any.  As in
`goErrIs`, `obfuscateErrorWrapper` has no `Unwrap` and stops the walk;
`ErrContextDeadlineWouldBeExceeded` unwraps to `context.DeadlineExceeded`,
which is not a `QueryError`. -/
def firstQueryError : GoErr → Option GoErr
  | .queryError i s e lc lm ep et st => some (.queryError i s e lc lm ep et st)
  | .wrapped _ i => firstQueryError i
  | .transport _ c => firstQueryError c
  | _ => none

/-- Go `Error()` rendering of a client-layer error.  Sentinel texts are
those of `internal/httpqueryclient/error.go` and the `context` package;
composite renderings (in particular the JSON blob that
`QueryError.Error` appends) are abstracted — no claim in this
development depends on a message text. -/
def goErrString : GoErr → String
  | .nilErr => "<nil>"
  | .analytics => "analytics error"
  | .invalidCredential => "an invalid set of credentials was provided"
  | .timeout => "operation has timed out"
  | .serviceUnavailable => "service unavailable"
  | .contextCanceled => "context canceled"
  | .contextDeadlineExceeded => "context deadline exceeded"
  | .contextDeadlineWouldBeExceeded =>
      "operation not sent to server, as timeout would be exceeded: context deadline exceeded"
  | .obfuscate m i => m ++ ": " ++ goErrString i
  | .wrapped m i => m ++ ": " ++ goErrString i
  | .transport t c => t ++ ": " ++ goErrString c
  | .parseFailure t => "parse failure: " ++ t
  | .noErrorsInBody => "query returned non-200 status code but no errors in body"
  | .queryError i _ _ _ _ _ _ _ => goErrString i ++ " | "

/-- The root causes of the public error taxonomy (`error.go` in the root
package): the exported sentinel errors, the two `context` errors, and
`client e` for the case where `translateClientError` keeps the original
client-layer error as the cause. -/
inductive PubErr where
  | analytics
  | invalidCredential
  | timeout
  | query
  | invalidArgument
  | closed
  | unmarshal
  | serviceUnavailable
  | canceled
  | deadlineExceeded
  | client (e : GoErr)
deriving DecidableEq, Repr

/-- `analyticsErrorDesc` from the root package `error.go`: code and
message only (the `retriable` flag is dropped at the public boundary). -/
structure PubErrorDesc where
  code : Nat
  message : String
deriving DecidableEq, Repr

/-- `AnalyticsError` from the root package `error.go`. -/
structure PubAnalyticsError where
  cause : PubErr
  message : String
  errors : List PubErrorDesc
  statement : String
  endpoint : String
  httpResponseCode : Nat
deriving DecidableEq, Repr

/-- `QueryError` from the root package `error.go`: an `AnalyticsError`
cause plus the selected code and message. -/
structure PubQueryError where
  cause : PubAnalyticsError
  code : Nat
  message : String
deriving DecidableEq, Repr

/-- Public `newAnalyticsError` (root package): nil causes fall back to
`ErrAnalytics`; here the caller always passes a concrete cause. -/
def newPubAnalyticsError (cause : PubErr) (statement endpoint : String)
    (status : Nat) : PubAnalyticsError :=
  { cause := cause
    message := ""
    errors := []
    statement := statement
    endpoint := endpoint
    httpResponseCode := status }

/-- Public `newQueryError` (root package); a nil cause falls back to
`ErrQuery`, which the embedding passes explicitly. -/
def newPubQueryError (cause : PubErr) (statement endpoint : String)
    (status : Nat) (code : Nat) (message : String) : PubQueryError :=
  { cause := newPubAnalyticsError cause statement endpoint status
    code := code
    message := message }

/-- Public `QueryError.withErrors`: assigns `e.cause.errors`. -/
def withPubErrors (e : PubQueryError) (descs : List PubErrorDesc) :
    PubQueryError :=
  { e with cause := { e.cause with errors := descs } }

/-- Public `AnalyticsError.withMessage`. -/
def withPubMessage (e : PubAnalyticsError) (message : String) :
    PubAnalyticsError :=
  { e with message := message }

/-- The result of `translateClientError`: the input unchanged (no
`QueryError` in the chain), an `AnalyticsError`, or a public
`QueryError`. -/
inductive TranslatedErr where
  | unchanged (e : GoErr)
  | analyticsErr (e : PubAnalyticsError)
  | queryErr (e : PubQueryError)
deriving DecidableEq, Repr

/-- `translateClientError` from `client_query.go` (lines 217–294):
locate the client `QueryError` in the chain; with an empty desc list map
the cause through the `errors.Is` switch; with a non-empty list build the
public desc array in order, select the first non-retriable entry (or the
first entry when all are retriable), dispatch on its code
(20000 / 21002 / 23000), and otherwise fall back to `ErrQuery`, overridden
by the inner error's own cause when it is a timeout / cancellation /
deadline. -/
def translateClientError (err : GoErr) : TranslatedErr :=
  match firstQueryError err with
  | none => .unchanged err
  | some clientErr =>
      match errsOf clientErr with
      | [] =>
          let baseErr : PubErr :=
            if goErrIs err .invalidCredential then .invalidCredential
            else if goErrIs err .serviceUnavailable then .serviceUnavailable
            else if goErrIs err .timeout then .timeout
            else if goErrIs err .canceled then .canceled
            else if goErrIs err .deadlineExceeded then .deadlineExceeded
            else .client err
          .analyticsErr (withPubMessage
            (newPubAnalyticsError baseErr (stmtOf clientErr)
              (endpointOf clientErr) (statusOf clientErr))
            (goErrString (innerOf clientErr)))
      | e0 :: es =>
          let descs : List PubErrorDesc :=
            (e0 :: es).map (fun d => ⟨d.code, d.message⟩)
          let firstNonRetriable := (e0 :: es).find? (fun d => !d.retry)
          let code : Nat :=
            match firstNonRetriable with
            | none => e0.code
            | some f => f.code
          let msg : String :=
            match firstNonRetriable with
            | none => e0.message
            | some f => f.message
          if code = 20000 then
            .queryErr (withPubErrors
              (newPubQueryError .invalidCredential (stmtOf clientErr)
                (endpointOf clientErr) (statusOf clientErr) code msg)
              descs)
          else if code = 21002 then
            .queryErr (withPubErrors
              (newPubQueryError .timeout (stmtOf clientErr)
                (endpointOf clientErr) (statusOf clientErr) code msg)
              descs)
          else if code = 23000 then
            .queryErr (withPubErrors
              (newPubQueryError .serviceUnavailable (stmtOf clientErr)
                (endpointOf clientErr) (statusOf clientErr) code msg)
              descs)
          else
            let overriddenCause : PubErr :=
              if goErrIs (innerOf clientErr) .timeout then .timeout
              else if goErrIs (innerOf clientErr) .canceled then .canceled
              else if goErrIs (innerOf clientErr) .deadlineExceeded then .deadlineExceeded
              else .query
            .queryErr (withPubErrors
              (newPubQueryError overriddenCause (stmtOf clientErr)
                (endpointOf clientErr) (statusOf clientErr) code msg)
              descs)

/-- Modelled from the spec: enforcement of the `max_retries` cap.  The
`Client.Query` present under `src/internal/httpqueryclient/query.go`
never reads `QueryOptions.MaxRetries`; only the field declaration
(`query_options.go` lines 21–22) and its option plumbing exist under
`src/`.  Following spec §7 and §9 — the cap "upper-bounds retry
attempts; on exhaustion the last classified error is surfaced; a value
of zero means no retries", "a hard upper bound that is checked before
backoff sleep" — every retry path of `queryStep` first checks
`retries ≥ maxRetries` and, on exhaustion, surfaces the error just
classified for the current attempt. -/
def queryStepMR (maxRetries : Nat) (ctxDeadline serverDeadline : Option Int)
    (statement host : String) (st : LoopState) (env : AttemptEnv) : StepRes :=
  let idx := env.pick % st.addrs.length
  match env.outcome with
  | .transportErr err cde =>
      if cde = .nilErr ∧ (goErrIs err .canceled ∨ goErrIs err .deadlineExceeded) then
        .done (.fatal (newAnalyticsError err statement host 0))
      else
        let root : GoErr :=
          if cde = .nilErr then .obfuscate "failed to send request" err
          else cde
        if maxRetries ≤ st.retries then
          .done (.fatal (withLastDetail (newAnalyticsError root statement host 0)
            st.lastCode st.lastMessage))
        else
          match handleMaybeRetryAnalytics ctxDeadline serverDeadline
              env.backoff env.now1 env.now2 st.payload with
          | .error notRetriableErr =>
              .done (.fatal (withLastDetail
                (newAnalyticsError notRetriableErr statement host 0)
                st.lastCode st.lastMessage))
          | .ok newBody =>
              .next { addrs := st.addrs.eraseIdx idx
                      payload := newBody.getD st.payload
                      bodyPayload := newBody
                      retries := st.retries + 1
                      lastCode := st.lastCode
                      lastMessage := st.lastMessage
                      lastRootErr := root }
  | .httpError status body =>
      match parseAnalyticsErrorResponse body statement host status
          st.lastCode st.lastMessage with
      | some cErr =>
          let fr := isAnalyticsErrorRetriable cErr
          if !fr.2 then
            .done (.fatal cErr)
          else if maxRetries ≤ st.retries then
            .done (.fatal cErr)
          else
            let lastCode' := match fr.1 with
              | some f => f.code
              | none => st.lastCode
            let lastMessage' := match fr.1 with
              | some f => f.message
              | none => st.lastMessage
            match handleMaybeRetryAnalytics ctxDeadline serverDeadline
                env.backoff env.now1 env.now2 st.payload with
            | .error e =>
                .done (.fatal (withLastDetail
                  (withErrorText
                    (withErrors (newAnalyticsError e statement host status)
                      (errsOf cErr))
                    (respBodyText body))
                  lastCode' lastMessage'))
            | .ok newBody =>
                .next { addrs := st.addrs
                        payload := newBody.getD st.payload
                        bodyPayload := newBody
                        retries := st.retries + 1
                        lastCode := lastCode'
                        lastMessage := lastMessage'
                        lastRootErr := cErr }
      | none =>
          .done (.fatal (withLastDetail
            (withErrorText (newAnalyticsError .noErrorsInBody statement host status)
              (respBodyText body))
            st.lastCode st.lastMessage))
  | .successRows _ => .done .reader
  | .successEmpty status meta =>
      match parseAnalyticsErrorResponse meta statement host status
          st.lastCode st.lastMessage with
      | some cErr =>
          let fr := isAnalyticsErrorRetriable cErr
          if !fr.2 then
            .done (.fatal cErr)
          else if maxRetries ≤ st.retries then
            .done (.fatal cErr)
          else
            let lastCode' := match fr.1 with
              | some f => f.code
              | none => st.lastCode
            let lastMessage' := match fr.1 with
              | some f => f.message
              | none => st.lastMessage
            match handleMaybeRetryAnalytics ctxDeadline serverDeadline
                env.backoff env.now1 env.now2 st.payload with
            | .error e =>
                .done (.fatal (withLastDetail
                  (withErrorText
                    (withErrors (newAnalyticsError e statement host status)
                      (errsOf cErr))
                    (respBodyText meta))
                  lastCode' lastMessage'))
            | .ok newBody =>
                .next { addrs := st.addrs
                        payload := newBody.getD st.payload
                        bodyPayload := newBody
                        retries := st.retries + 1
                        lastCode := lastCode'
                        lastMessage := lastMessage'
                        lastRootErr := cErr }
      | none => .done .reader
  | .earlyFailure e => .done (.fatal e)

/-- Modelled from the spec: the attempt loop with the `max_retries` cap
of `queryStepMR` (see its doc comment for what is missing from `src/`). -/
def queryLoopMR (maxRetries : Nat) (ctxDeadline serverDeadline : Option Int)
    (statement host : String) :
    LoopState → List AttemptEnv → QueryOutcome
  | st, envs =>
      if st.addrs.isEmpty then
        ⟨.finished (.fatal (emptyAddrsError statement host st)), envs⟩
      else
        match envs with
        | [] => ⟨.outOfFuel, []⟩
        | env :: rest =>
            match queryStepMR maxRetries ctxDeadline serverDeadline statement host st env with
            | .done r => ⟨.finished r, rest⟩
            | .next st' =>
                queryLoopMR maxRetries ctxDeadline serverDeadline statement host st' rest

/-- The server error entry whose code `translateClientError` dispatches
on: the first entry with `retriable = false`, or the first entry of the
list when every entry is retriable.  (Stated from the spec's words, for
comparison against `translateClientError`.) -/
def selectedDesc (e0 : ErrorDesc) (es : List ErrorDesc) : ErrorDesc :=
  ((e0 :: es).find? (fun d => !d.retry)).getD e0

section Helpers

/-- A non-empty list is not `isEmpty`. -/
theorem aux_isEmpty_false {α : Type} (l : List α) (h : l ≠ []) :
    l.isEmpty = false := by
  cases l with
  | nil => exact absurd rfl h
  | cons a t => rfl

/-- Reading back the key just written by `payloadSet`. -/
theorem aux_payloadGet_set_self (p : Payload) (k : String) (v : JValue) :
    payloadGet (payloadSet p k v) k = some v := by
  simp [payloadGet, payloadSet, List.lookup]

/-- Keys other than the one written by `payloadSet` are unchanged. -/
theorem aux_payloadGet_set_ne (p : Payload) (k k' : String) (v : JValue)
    (h : k' ≠ k) : payloadGet (payloadSet p k v) k' = payloadGet p k' := by
  have hbe : (k' == k) = false := by simpa using h
  simp only [payloadGet, payloadSet, List.lookup, hbe]
  induction p with
  | nil => rfl
  | cons hd tl ih =>
      obtain ⟨k1, v1⟩ := hd
      by_cases hh : k1 = k
      · subst hh
        rw [List.filter_cons_of_neg (by simp)]
        rw [ih]
        simp [List.lookup, hbe]
      · rw [List.filter_cons_of_pos (by simp [hh])]
        by_cases hk : k' = k1
        · subst hk
          simp [List.lookup]
        · have hbk : (k' == k1) = false := by simpa using hk
          simp only [List.lookup, hbk]
          exact ih

/-- Unfolding one iteration of `queryLoop` when addresses remain. -/
theorem aux_queryLoop_cons (cd sd : Option Int) (statement host : String)
    (st : LoopState) (env : AttemptEnv) (rest : List AttemptEnv)
    (hne : st.addrs ≠ []) :
    queryLoop cd sd statement host st (env :: rest) =
      match queryStep cd sd statement host st env with
      | .done r => ⟨.finished r, rest⟩
      | .next st' => queryLoop cd sd statement host st' rest := by
  rw [queryLoop]
  simp [aux_isEmpty_false _ hne]

/-- Unfolding one iteration of `queryLoopMR` when addresses remain. -/
theorem aux_queryLoopMR_cons (m : Nat) (cd sd : Option Int)
    (statement host : String) (st : LoopState) (env : AttemptEnv)
    (rest : List AttemptEnv) (hne : st.addrs ≠ []) :
    queryLoopMR m cd sd statement host st (env :: rest) =
      match queryStepMR m cd sd statement host st env with
      | .done r => ⟨.finished r, rest⟩
      | .next st' => queryLoopMR m cd sd statement host st' rest := by
  rw [queryLoopMR]
  simp [aux_isEmpty_false _ hne]

/-- When a server deadline is set, a successful retry decision always
returns the payload with the `timeout` key overwritten by the remaining
budget. -/
theorem aux_handle_some_sd (cd : Option Int) (s b n1 n2 : Int)
    (p : Payload) (nb : Option Payload)
    (h : handleMaybeRetryAnalytics cd (some s) b n1 n2 p = .ok nb) :
    nb = some (payloadSet p "timeout" (.str (durationString (s - (n2 + b))))) := by
  unfold handleMaybeRetryAnalytics at h
  cases cd with
  | none =>
      simp only at h
      split at h
      · exact absurd h (by simp)
      · simp only [Except.ok.injEq] at h
        exact h.symm
  | some c =>
      simp only at h
      split at h
      · exact absurd h (by simp)
      · split at h
        · exact absurd h (by simp)
        · simp only [Except.ok.injEq] at h
          exact h.symm

/-- Every `next` transition of `queryStep` comes from a successful retry
decision, increments `retries`, carries the body returned by the retry
controller, and leaves the address list unchanged unless the outcome was
a transport failure (in which case the attempted endpoint is erased). -/
theorem aux_step_next (cd sd : Option Int) (statement host : String)
    (st : LoopState) (env : AttemptEnv) (st' : LoopState)
    (h : queryStep cd sd statement host st env = .next st') :
    ∃ nb, handleMaybeRetryAnalytics cd sd env.backoff env.now1 env.now2 st.payload = .ok nb
      ∧ st'.payload = nb.getD st.payload
      ∧ st'.bodyPayload = nb
      ∧ st'.retries = st.retries + 1
      ∧ (st'.addrs = st.addrs ∨
          (∃ e c, env.outcome = .transportErr e c ∧
            st'.addrs = st.addrs.eraseIdx (env.pick % st.addrs.length))) := by
  obtain ⟨pick, outcome, b, n1, n2⟩ := env
  cases outcome with
  | transportErr err cde =>
      simp only [queryStep] at h
      split at h
      · exact absurd h (by simp)
      · split at h
        · exact absurd h (by simp)
        · rename_i nb hnb
          cases h
          exact ⟨nb, hnb, rfl, rfl, rfl, Or.inr ⟨err, cde, rfl, rfl⟩⟩
  | httpError status body =>
      simp only [queryStep] at h
      split at h
      · rename_i cErr hparse
        split at h
        · exact absurd h (by simp)
        · split at h
          · exact absurd h (by simp)
          · rename_i nb hnb
            cases h
            exact ⟨nb, hnb, rfl, rfl, rfl, Or.inl rfl⟩
      · exact absurd h (by simp)
  | successRows status => exact absurd h (by simp [queryStep])
  | successEmpty status meta =>
      simp only [queryStep] at h
      split at h
      · rename_i cErr hparse
        split at h
        · exact absurd h (by simp)
        · split at h
          · exact absurd h (by simp)
          · rename_i nb hnb
            cases h
            exact ⟨nb, hnb, rfl, rfl, rfl, Or.inl rfl⟩
      · exact absurd h (by simp)
  | earlyFailure e => exact absurd h (by simp [queryStep])

end Helpers

/-- C9: for every attempt number `n ≥ 0` and every RNG outcome, the
backoff calculator `analyticsExponentialBackoffWithJitter` returns a
delay `d` with `min ≤ d ≤ max` — the clamp being applied after the
random scaling of `min·factorⁿ` — provided `0 < min ≤ max` (so that the
given bounds, rather than the defaulted ones, are in effect;
`Client.Query` instantiates `min = 100 ms`, `max = 1 min`). -/
theorem claim9_backoff_bounds (minD maxD factor randVal : ℚ) (n : Nat)
    (hmin : 0 < minD) (hle : minD ≤ maxD) :
    minD ≤ analyticsExponentialBackoffWithJitter minD maxD factor randVal n ∧
    analyticsExponentialBackoffWithJitter minD maxD factor randVal n ≤ maxD := by
  have hmax : 0 < maxD := lt_of_lt_of_le hmin hle
  unfold analyticsExponentialBackoffWithJitter
  rw [if_pos hmin, if_pos hmax]
  constructor <;> dsimp only <;> split_ifs <;> linarith

/-- Witness for `claim9_backoff_bounds` at the `Client.Query`
instantiation (100 ms, 1 min, factor 2), attempt 3, RNG draw 1/2. -/
theorem claim9_witness :
    (100000000 : ℚ) ≤ analyticsExponentialBackoffWithJitter 100000000 60000000000 2 (1/2) 3 ∧
    analyticsExponentialBackoffWithJitter 100000000 60000000000 2 (1/2) 3 ≤ 60000000000 :=
  claim9_backoff_bounds 100000000 60000000000 2 (1/2) 3 (by norm_num) (by norm_num)

/-- C3 counterexample: with a server deadline exactly met
(`remaining = server-deadline − (now + b) = 0`), the claim says the
controller returns the timeout error, but `handleMaybeRetryAnalytics`
tests `serverTimeout < 0` — so at `remaining = 0` it overwrites the
payload's `timeout` key with the zero duration and allows the retry
instead of returning `ErrTimeout`. -/
theorem claim3_counterexample :
    handleMaybeRetryAnalytics none (some 10) 5 0 5 [] =
      .ok (some [("timeout", JValue.str "0ns")]) ∧
    handleMaybeRetryAnalytics none (some 10) 5 0 5 [] ≠
      .error GoErr.timeout := by
  refine ⟨rfl, fun h => ?_⟩
  rw [show handleMaybeRetryAnalytics none (some 10) 5 0 5 [] =
    .ok (some [("timeout", JValue.str "0ns")]) from rfl] at h
  exact Except.noConfusion h

/-- C3 (amended): at every retry decision point with backoff `b`: if a
caller deadline is set and `now + b` is past `caller-deadline − b`, the
controller returns the deadline-would-be-exceeded error (which wraps
the caller's deadline-exceeded cause) without consulting the server
deadline (and before the sleep, which is not modelled); otherwise with a
server deadline set it computes `remaining = server-deadline − (now + b)`,
returns the timeout error when `remaining < 0` (the claim said `≤ 0`;
see `claim3_counterexample` for `remaining = 0`), and otherwise
overwrites `payload["timeout"]` with the duration string of `remaining`
— leaving every other key unchanged — and re-serialises the payload;
with no server deadline it returns a nil body. -/
theorem claim3_retry_decision (cd sd : Option Int) (b now1 now2 : Int)
    (p : Payload) :
    (∀ c, cd = some c → c - b < now1 + b →
      handleMaybeRetryAnalytics cd sd b now1 now2 p =
        .error .contextDeadlineWouldBeExceeded)
    ∧ goErrIs .contextDeadlineWouldBeExceeded .deadlineExceeded = true
    ∧ (∀ s, sd = some s → (∀ c, cd = some c → ¬(c - b < now1 + b)) →
        (s - (now2 + b) < 0 →
          handleMaybeRetryAnalytics cd sd b now1 now2 p = .error .timeout)
        ∧ (0 ≤ s - (now2 + b) →
            handleMaybeRetryAnalytics cd sd b now1 now2 p =
              .ok (some (payloadSet p "timeout"
                (.str (durationString (s - (now2 + b))))))
            ∧ payloadGet (payloadSet p "timeout"
                (.str (durationString (s - (now2 + b))))) "timeout" =
                some (.str (durationString (s - (now2 + b))))
            ∧ ∀ k, k ≠ "timeout" →
                payloadGet (payloadSet p "timeout"
                  (.str (durationString (s - (now2 + b))))) k =
                  payloadGet p k))
    ∧ (sd = none → (∀ c, cd = some c → ¬(c - b < now1 + b)) →
        handleMaybeRetryAnalytics cd sd b now1 now2 p = .ok none) := by
  refine ⟨?_, rfl, ?_, ?_⟩
  · intro c hc hlt
    subst hc
    unfold handleMaybeRetryAnalytics
    simp [hlt]
  · intro s hs hno
    subst hs
    constructor
    · intro hneg
      unfold handleMaybeRetryAnalytics
      cases cd with
      | none => simp [hneg]
      | some c =>
          have hn := hno c rfl
          simp [if_neg hn, hneg]
    · intro hpos
      have hnneg : ¬ (s - (now2 + b) < 0) := not_lt.mpr hpos
      refine ⟨?_, aux_payloadGet_set_self p _ _,
        fun k hk => aux_payloadGet_set_ne p _ k _ hk⟩
      unfold handleMaybeRetryAnalytics
      cases cd with
      | none => simp [hnneg]
      | some c =>
          have hn := hno c rfl
          simp [if_neg hn, hnneg]
  · intro hs hno
    subst hs
    unfold handleMaybeRetryAnalytics
    cases cd with
    | none => rfl
    | some c =>
        have hn := hno c rfl
        simp [if_neg hn]

/-- Witness for `claim3_retry_decision`: caller deadline 9, backoff 5,
now 0 — the budget check refuses the retry. -/
theorem claim3_witness :
    handleMaybeRetryAnalytics (some 9) (some 100) 5 0 0 [] =
      .error .contextDeadlineWouldBeExceeded :=
  (claim3_retry_decision (some 9) (some 100) 5 0 0 []).1 9 rfl (by decide)

/-- C10: `Client.Query` panics at the unchecked type assertion
`st.(string)` — before the host resolution and before any attempt is
dispatched, as witnessed by the result being `panics` for every
`resolved` outcome and every oracle — exactly when the payload binds
`"timeout"` to a non-string value; for payloads where `"timeout"` is
absent or a string the call returns normally (possibly with an error),
whatever duration parser is in effect. -/
theorem claim10_timeout_type_assertion
    (parseDuration : String → Option Int) (now : Int) (cd : Option Int)
    (payload : Payload) (statement host : String)
    (resolved : Except GoErr (List String)) (envs : List AttemptEnv) :
    (∃ tag, payloadGet payload "timeout" = some (.other tag)) ↔
      ∃ m, clientQuery parseDuration now cd payload statement host
        resolved envs = .panics m := by
  unfold clientQuery queryPrologue
  cases hget : payloadGet payload "timeout" with
  | none =>
      simp only [hget]
      constructor
      · rintro ⟨tag, htag⟩
        exact absurd htag (by simp)
      · rintro ⟨m, hm⟩
        cases resolved <;> simp at hm
  | some v =>
      cases v with
      | str s =>
          simp only [hget]
          constructor
          · rintro ⟨tag, htag⟩
            exact absurd htag (by simp)
          · rintro ⟨m, hm⟩
            cases hpd : parseDuration s <;> rw [hpd] at hm
            · simp at hm
            · cases resolved <;> simp at hm
      | other tag =>
          simp only [hget]
          exact ⟨fun _ => ⟨"interface conversion: interface is not string", rfl⟩,
            fun _ => ⟨tag, rfl⟩⟩

/-- Witness for `claim10_timeout_type_assertion`: a payload binding
`timeout` to a JSON number panics. -/
theorem claim10_witness :
    ∃ m, clientQuery (fun _ => some 0) 0 none [("timeout", .other "3")]
      "stmt" "host" (.ok []) [] = .panics m :=
  (claim10_timeout_type_assertion (fun _ => some 0) 0 none
    [("timeout", .other "3")] "stmt" "host" (.ok []) []).mp ⟨"3", rfl⟩

/-- C2: a response with HTTP status 401 — whatever its body — makes the
attempt loop return, with no further attempt (the oracle suffix `rest`
is untouched), the fatal error built by `parseAnalyticsErrorResponse`
whose cause is `ErrInvalidCredential`. -/
theorem claim2_http401 (cd sd : Option Int) (statement host : String)
    (st : LoopState) (env : AttemptEnv) (body : RespBody)
    (rest : List AttemptEnv) (haddrs : st.addrs ≠ [])
    (houtcome : env.outcome = .httpError 401 body) :
    queryLoop cd sd statement host st (env :: rest) =
      ⟨.finished (.fatal (newAnalyticsError .invalidCredential statement host 401)),
        rest⟩ ∧
    goErrIs (newAnalyticsError .invalidCredential statement host 401)
      .invalidCredential = true := by
  have hstep : queryStep cd sd statement host st env =
      .done (.fatal (newAnalyticsError .invalidCredential statement host 401)) := by
    obtain ⟨pick, outcome, b, n1, n2⟩ := env
    simp only at houtcome
    subst houtcome
    simp [queryStep, parseAnalyticsErrorResponse, isAnalyticsErrorRetriable,
      goErrIs, newAnalyticsError, errsOf]
  rw [aux_queryLoop_cons cd sd statement host st env rest haddrs, hstep]
  exact ⟨rfl, rfl⟩

/-- Witness for `claim2_http401` on a one-endpoint state. -/
theorem claim2_witness :
    queryLoop none none "stmt" "host"
      ⟨["10.0.0.1"], [], some [], 0, 0, "", .nilErr⟩
      [⟨0, .httpError 401 (.malformed "nope"), 1, 0, 0⟩] =
      ⟨.finished (.fatal (newAnalyticsError .invalidCredential "stmt" "host" 401)),
        []⟩ :=
  (claim2_http401 none none "stmt" "host"
    ⟨["10.0.0.1"], [], some [], 0, 0, "", .nilErr⟩
    ⟨0, .httpError 401 (.malformed "nope"), 1, 0, 0⟩ (.malformed "nope") []
    (by decide) rfl).1

/-- Any error produced by `parseAnalyticsErrorResponse` either does not
wrap `ErrServiceUnavailable` or carries an empty desc list (the
service-unavailable shape arises only from a 503 with no parsed
errors). -/
theorem aux_parse_su_empty (body : RespBody) (statement endpoint : String)
    (status lc : Nat) (lm : String) (cErr : GoErr)
    (h : parseAnalyticsErrorResponse body statement endpoint status lc lm = some cErr) :
    goErrIs cErr .serviceUnavailable = false ∨ errsOf cErr = [] := by
  unfold parseAnalyticsErrorResponse at h
  split at h
  · injection h with h'
    subst h'
    exact Or.inl rfl
  · cases body with
    | malformed t =>
        simp only at h
        injection h with h'
        subst h'
        exact Or.inl rfl
    | noErrors t =>
        simp only at h
        split at h
        · injection h with h'
          subst h'
          exact Or.inr rfl
        · exact absurd h (by simp)
    | badErrorsField t =>
        simp only at h
        injection h with h'
        subst h'
        exact Or.inl rfl
    | withErrors t errs =>
        simp only at h
        split at h
        · exact absurd h (by simp)
        · injection h with h'
          subst h'
          exact Or.inl rfl

/-- C1 (amended): a parsed server error is classified retriable **iff**
it wraps `ErrServiceUnavailable` (the 503-with-empty-errors shape, which
the original claim misses: see `claim1_counterexample`), or its desc
list is non-empty with every entry `retriable = true`.  Consequently an
errors list containing any entry with `retriable = false` makes the
attempt loop surface that error as fatal with no further attempt (the
oracle suffix `rest` is untouched). -/
theorem claim1_retriable_classification (cd sd : Option Int)
    (statement host : String) (st : LoopState) (env : AttemptEnv)
    (status : Nat) (body : RespBody) (cErr : GoErr)
    (rest : List AttemptEnv) :
    ((isAnalyticsErrorRetriable cErr).2 = true ↔
      (goErrIs cErr .serviceUnavailable = true ∨
        (errsOf cErr ≠ [] ∧ ∀ d ∈ errsOf cErr, d.retry = true)))
    ∧ (st.addrs ≠ [] →
        env.outcome = .httpError status body →
        parseAnalyticsErrorResponse body statement host status
          st.lastCode st.lastMessage = some cErr →
        (∃ d ∈ errsOf cErr, d.retry = false) →
        queryLoop cd sd statement host st (env :: rest) =
          ⟨.finished (.fatal cErr), rest⟩) := by
  constructor
  · by_cases hsu : goErrIs cErr .serviceUnavailable = true
    · simp [isAnalyticsErrorRetriable, hsu]
    · have hsu' : goErrIs cErr .serviceUnavailable = false :=
        Bool.eq_false_iff.mpr hsu
      cases herr : errsOf cErr with
      | nil => simp [isAnalyticsErrorRetriable, hsu', herr]
      | cons e0 es =>
          simp only [isAnalyticsErrorRetriable, hsu', Bool.false_eq_true,
            if_false, herr]
          constructor
          · intro hall
            refine Or.inr ⟨by simp, ?_⟩
            split at hall
            · rename_i hA
              intro d hd
              exact List.all_eq_true.mp hA d hd
            · exact absurd hall (by simp)
          · rintro (hl | ⟨_, hall⟩)
            · exact hl.elim
            · rw [if_pos (List.all_eq_true.mpr hall)]
  · intro haddrs houtcome hparse ⟨d, hmem, hdret⟩
    have hne : errsOf cErr ≠ [] := by
      intro hnil
      rw [hnil] at hmem
      exact absurd hmem (List.not_mem_nil d)
    have hsu : goErrIs cErr .serviceUnavailable = false := by
      rcases aux_parse_su_empty body statement host status st.lastCode
        st.lastMessage cErr hparse with hf | hemp
      · exact hf
      · exact absurd hemp hne
    have hfr : (isAnalyticsErrorRetriable cErr).2 = false := by
      cases herr : errsOf cErr with
      | nil => exact absurd herr hne
      | cons e0 es =>
          simp only [isAnalyticsErrorRetriable, hsu, Bool.false_eq_true,
            if_false, herr]
          have : ((e0 :: es).all fun d => d.retry) = false := by
            rw [List.all_eq_false]
            exact ⟨d, herr ▸ hmem, by simp [hdret]⟩
          rw [this]
          simp
    have hstep : queryStep cd sd statement host st env = .done (.fatal cErr) := by
      obtain ⟨pick, outcome, b, n1, n2⟩ := env
      simp only at houtcome
      subst houtcome
      simp only [queryStep, hparse]
      rw [if_pos (by simp [hfr])]
    rw [aux_queryLoop_cons cd sd statement host st env rest haddrs, hstep]

/-- C1 counterexample: a 503 response whose body parses but carries no
`errors` member yields an error that wraps `ErrServiceUnavailable` with
an EMPTY desc list, yet the classifier marks it retriable — refuting
"retriable iff the `ErrorDesc` list is non-empty and every entry has
`retriable = true`". -/
theorem claim1_counterexample :
    parseAnalyticsErrorResponse (.noErrors "") "stmt" "host" 503 0 "" =
      some (newAnalyticsError .serviceUnavailable "stmt" "host" 503) ∧
    (isAnalyticsErrorRetriable
      (newAnalyticsError .serviceUnavailable "stmt" "host" 503)).2 = true ∧
    errsOf (newAnalyticsError .serviceUnavailable "stmt" "host" 503) = [] :=
  ⟨rfl, rfl, rfl⟩

/-- Witness for `claim1_retriable_classification`: a one-entry errors
list with `retriable = false` is fatal on the spot. -/
theorem claim1_witness :
    queryLoop none none "stmt" "host"
      ⟨["10.0.0.1"], [], some [], 0, 0, "", .nilErr⟩
      [⟨0, .httpError 500 (.withErrors "t" [⟨25000, "boom", false⟩]), 1, 0, 0⟩] =
      ⟨.finished (.fatal (withErrors
        (withErrorText
          (withLastDetail (newAnalyticsError .analytics "stmt" "host" 500) 0 "")
          "t")
        [⟨25000, "boom", false⟩])), []⟩ :=
  (claim1_retriable_classification none none "stmt" "host"
    ⟨["10.0.0.1"], [], some [], 0, 0, "", .nilErr⟩
    ⟨0, .httpError 500 (.withErrors "t" [⟨25000, "boom", false⟩]), 1, 0, 0⟩
    500 (.withErrors "t" [⟨25000, "boom", false⟩])
    (withErrors
      (withErrorText
        (withLastDetail (newAnalyticsError .analytics "stmt" "host" 500) 0 "")
        "t")
      [⟨25000, "boom", false⟩]) []).2
    (by decide) rfl rfl
    ⟨⟨25000, "boom", false⟩, by exact List.mem_singleton.mpr rfl, rfl⟩

/-- C5 counterexample: a mid-stream transport failure surfaced AFTER the
connect completed (the `ConnectDone` hook fired with a nil error, so
`connectDoneErr == nil`) and whose cause is not the caller's
cancellation or deadline is retried — the loop consumes a second oracle
entry and succeeds — rather than being fatal with the transport error as
the claim states. -/
theorem claim5_counterexample :
    queryLoop none none "stmt" "host"
      ⟨["10.0.0.1", "10.0.0.2"], [], some [], 0, 0, "", .nilErr⟩
      [⟨0, .transportErr (.transport "read: connection reset by peer" .nilErr) .nilErr, 1, 0, 0⟩,
       ⟨0, .successRows 200, 1, 0, 0⟩] =
      ⟨.finished .reader, []⟩ ∧
    (queryLoop none none "stmt" "host"
      ⟨["10.0.0.1", "10.0.0.2"], [], some [], 0, 0, "", .nilErr⟩
      [⟨0, .transportErr (.transport "read: connection reset by peer" .nilErr) .nilErr, 1, 0, 0⟩,
       ⟨0, .successRows 200, 1, 0, 0⟩]).result ≠
      .finished (.fatal (.transport "read: connection reset by peer" .nilErr)) := by
  refine ⟨rfl, fun h => ?_⟩
  rw [show (queryLoop none none "stmt" "host"
      ⟨["10.0.0.1", "10.0.0.2"], [], some [], 0, 0, "", .nilErr⟩
      [⟨0, .transportErr (.transport "read: connection reset by peer" .nilErr) .nilErr, 1, 0, 0⟩,
       ⟨0, .successRows 200, 1, 0, 0⟩]).result = .finished .reader from rfl] at h
  injection h with h'
  exact QueryResult.noConfusion h'

/-- C5 (amended): a transport-layer dispatch failure is fatal — yielding
`newAnalyticsError err` directly, with no further attempt — exactly when
no dial error was recorded by the connect trace (`connectDoneErr == nil`,
which also covers a connect that completed successfully) AND the cause
is the caller's cancellation or deadline.  Every other transport failure
is retried subject to the deadline budget: on a refused budget the
budget error is fatal, otherwise the attempted endpoint is erased from
the candidate list and the loop continues, retaining the dial error (or
the wrapped send failure) as the last root cause. -/
theorem claim5_transport_retry (cd sd : Option Int)
    (statement host : String) (st : LoopState) (pick : Nat)
    (b n1 n2 : Int) (err cde : GoErr) (rest : List AttemptEnv)
    (haddrs : st.addrs ≠ []) :
    (cde = .nilErr ∧ (goErrIs err .canceled = true ∨ goErrIs err .deadlineExceeded = true) →
      queryLoop cd sd statement host st
          (⟨pick, .transportErr err cde, b, n1, n2⟩ :: rest) =
        ⟨.finished (.fatal (newAnalyticsError err statement host 0)), rest⟩)
    ∧ (¬(cde = .nilErr ∧ (goErrIs err .canceled = true ∨ goErrIs err .deadlineExceeded = true)) →
        (∀ e, handleMaybeRetryAnalytics cd sd b n1 n2 st.payload = .error e →
          queryLoop cd sd statement host st
              (⟨pick, .transportErr err cde, b, n1, n2⟩ :: rest) =
            ⟨.finished (.fatal (withLastDetail
              (newAnalyticsError e statement host 0)
              st.lastCode st.lastMessage)), rest⟩)
        ∧ (∀ nb, handleMaybeRetryAnalytics cd sd b n1 n2 st.payload = .ok nb →
            queryLoop cd sd statement host st
                (⟨pick, .transportErr err cde, b, n1, n2⟩ :: rest) =
              queryLoop cd sd statement host
                { addrs := st.addrs.eraseIdx (pick % st.addrs.length)
                  payload := nb.getD st.payload
                  bodyPayload := nb
                  retries := st.retries + 1
                  lastCode := st.lastCode
                  lastMessage := st.lastMessage
                  lastRootErr :=
                    if cde = .nilErr then
                      .obfuscate "failed to send request" err
                    else cde }
                rest)) := by
  constructor
  · intro hcond
    rw [aux_queryLoop_cons cd sd statement host st _ rest haddrs]
    simp only [queryStep]
    rw [if_pos hcond]
  · intro hcond
    constructor
    · intro e he
      rw [aux_queryLoop_cons cd sd statement host st _ rest haddrs]
      simp only [queryStep]
      rw [if_neg hcond, he]
    · intro nb hnb
      rw [aux_queryLoop_cons cd sd statement host st _ rest haddrs]
      simp only [queryStep]
      rw [if_neg hcond, hnb]

/-- Witness for `claim5_transport_retry`: a caller cancellation with no
dial error recorded is fatal on the spot. -/
theorem claim5_witness :
    queryLoop none none "stmt" "host"
      ⟨["10.0.0.1"], [], some [], 0, 0, "", .nilErr⟩
      [⟨0, .transportErr (.transport "Post" .contextCanceled) .nilErr, 1, 0, 0⟩] =
      ⟨.finished (.fatal (newAnalyticsError
        (.transport "Post" .contextCanceled) "stmt" "host" 0)), []⟩ :=
  (claim5_transport_retry none none "stmt" "host"
    ⟨["10.0.0.1"], [], some [], 0, 0, "", .nilErr⟩ 0 1 0 0
    (.transport "Post" .contextCanceled) .nilErr [] (by decide)).1
    ⟨rfl, Or.inl rfl⟩

/-- C6: within one call the host is resolved once, before the loop
(`clientQuery` takes a single `resolved` input and the loop never adds
an address); an endpoint is removed from the candidate list only when a
retriable transport failure occurred — every `next` transition either
leaves the list unchanged or, exactly on a transport-failure retry,
erases the attempted index — so the list only ever shrinks (it stays a
sublist of the original); and when the list becomes empty the loop
returns the last retained root cause as the fatal error without
consuming any oracle entry. -/
theorem claim6_endpoint_rotation (cd sd : Option Int)
    (statement host : String) :
    (∀ st env st', queryStep cd sd statement host st env = .next st' →
      st'.addrs = st.addrs ∨
        (∃ e c, env.outcome = .transportErr e c ∧
          st'.addrs = st.addrs.eraseIdx (env.pick % st.addrs.length)))
    ∧ (∀ st env st', queryStep cd sd statement host st env = .next st' →
        st'.addrs.Sublist st.addrs)
    ∧ (∀ st envs, st.addrs = [] →
        queryLoop cd sd statement host st envs =
          ⟨.finished (.fatal (withLastDetail
            (newAnalyticsError st.lastRootErr statement host 0)
            st.lastCode st.lastMessage)), envs⟩) := by
  refine ⟨?_, ?_, ?_⟩
  · intro st env st' h
    exact (aux_step_next cd sd statement host st env st' h).choose_spec.2.2.2.2
  · intro st env st' h
    rcases (aux_step_next cd sd statement host st env st' h).choose_spec.2.2.2.2 with
      heq | ⟨_, _, _, herase⟩
    · rw [heq]
    · rw [herase]
      exact List.eraseIdx_sublist st.addrs (env.pick % st.addrs.length)
  · intro st envs hnil
    rw [queryLoop.eq_def]
    simp [hnil, emptyAddrsError]

/-- Witness for `claim6_endpoint_rotation`: the exhausted-list return
surfaces the retained root cause and last detail. -/
theorem claim6_witness :
    queryLoop none none "stmt" "host"
      ⟨[], [], some [], 3, 7, "m", .analytics⟩ [] =
      ⟨.finished (.fatal (withLastDetail
        (newAnalyticsError .analytics "stmt" "host" 0) 7 "m")), []⟩ :=
  (claim6_endpoint_rotation none none "stmt" "host").2.2
    ⟨[], [], some [], 3, 7, "m", .analytics⟩ [] rfl

/-- C7: with a server deadline in effect (as every `ExecuteQuery`
payload has, since the façade always sets a parseable `timeout` entry),
every retry submits a body that agrees with the previous attempt's body
on every key other than `"timeout"` — and Go's `json.Marshal` of a map
is a deterministic function of its content, so the serialised bytes
differ only in the `timeout` member; in particular the
`client_context_id` entry is identical across the attempts.  The
conclusion also re-establishes the invariant `bodyPayload = payload`
consumed by the hypothesis, so it transports across all attempts of one
call. -/
theorem claim7_payload_stability (cd : Option Int) (s : Int)
    (statement host : String) (st : LoopState) (env : AttemptEnv)
    (st' : LoopState)
    (hinv : st.bodyPayload = some st.payload)
    (hstep : queryStep cd (some s) statement host st env = .next st') :
    ∃ p', st.bodyPayload = some st.payload ∧ st'.bodyPayload = some p'
      ∧ st'.payload = p'
      ∧ (∀ k, k ≠ "timeout" → payloadGet p' k = payloadGet st.payload k)
      ∧ payloadGet p' "client_context_id" =
          payloadGet st.payload "client_context_id" := by
  obtain ⟨nb, hnb, hpay, hbody, _, _⟩ :=
    aux_step_next cd (some s) statement host st env st' hstep
  have hnb' := aux_handle_some_sd cd s env.backoff env.now1 env.now2
    st.payload nb hnb
  subst hnb'
  refine ⟨_, hinv, hbody, by simpa using hpay, ?_, ?_⟩
  · exact fun k hk => aux_payloadGet_set_ne st.payload _ k _ hk
  · exact aux_payloadGet_set_ne st.payload _ _ _ (by decide)

/-- Witness for `claim7_payload_stability`: one transport-failure retry
of a payload carrying `client_context_id`. -/
theorem claim7_witness :
    ∃ p', (LoopState.mk ["10.0.0.1"] [("client_context_id", .str "id-1")]
        (some [("client_context_id", .str "id-1")]) 0 0 "" .nilErr).bodyPayload =
          some [("client_context_id", JValue.str "id-1")]
      ∧ (LoopState.mk [] [("timeout", .str "999ns"), ("client_context_id", .str "id-1")]
          (some [("timeout", .str "999ns"), ("client_context_id", .str "id-1")]) 1 0 ""
          (.obfuscate "failed to send request" (.transport "io" .nilErr))).bodyPayload = some p'
      ∧ (LoopState.mk [] [("timeout", .str "999ns"), ("client_context_id", .str "id-1")]
          (some [("timeout", .str "999ns"), ("client_context_id", .str "id-1")]) 1 0 ""
          (.obfuscate "failed to send request" (.transport "io" .nilErr))).payload = p'
      ∧ (∀ k, k ≠ "timeout" →
          payloadGet p' k =
            payloadGet [("client_context_id", JValue.str "id-1")] k)
      ∧ payloadGet p' "client_context_id" =
          payloadGet [("client_context_id", JValue.str "id-1")] "client_context_id" :=
  claim7_payload_stability none 1000 "stmt" "host"
    ⟨["10.0.0.1"], [("client_context_id", .str "id-1")],
      some [("client_context_id", .str "id-1")], 0, 0, "", .nilErr⟩
    ⟨0, .transportErr (.transport "io" .nilErr) .nilErr, 1, 0, 0⟩
    ⟨[], [("timeout", .str "999ns"), ("client_context_id", .str "id-1")],
      some [("timeout", .str "999ns"), ("client_context_id", .str "id-1")], 1, 0, "",
      .obfuscate "failed to send request" (.transport "io" .nilErr)⟩
    rfl rfl

/-- Every `next` transition of `queryStepMR` happens strictly below the
cap and increments the retry counter. -/
theorem aux_stepMR_next (m : Nat) (cd sd : Option Int)
    (statement host : String) (st : LoopState) (env : AttemptEnv)
    (st' : LoopState)
    (h : queryStepMR m cd sd statement host st env = .next st') :
    st.retries < m ∧ st'.retries = st.retries + 1 := by
  obtain ⟨pick, outcome, b, n1, n2⟩ := env
  cases outcome with
  | transportErr err cde =>
      simp only [queryStepMR] at h
      split at h
      · exact absurd h (by simp)
      · split at h
        · exact absurd h (by simp)
        · rename_i hcap
          split at h
          · exact absurd h (by simp)
          · cases h
            exact ⟨Nat.lt_of_not_le hcap, rfl⟩
  | httpError status body =>
      simp only [queryStepMR] at h
      split at h
      · split at h
        · exact absurd h (by simp)
        · split at h
          · exact absurd h (by simp)
          · rename_i hcap
            split at h
            · exact absurd h (by simp)
            · cases h
              exact ⟨Nat.lt_of_not_le hcap, rfl⟩
      · exact absurd h (by simp)
  | successRows status => exact absurd h (by simp [queryStepMR])
  | successEmpty status meta =>
      simp only [queryStepMR] at h
      split at h
      · split at h
        · exact absurd h (by simp)
        · split at h
          · exact absurd h (by simp)
          · rename_i hcap
            split at h
            · exact absurd h (by simp)
            · cases h
              exact ⟨Nat.lt_of_not_le hcap, rfl⟩
      · exact absurd h (by simp)
  | earlyFailure e => exact absurd h (by simp [queryStepMR])

/-- At or above the cap, every step terminates the loop. -/
theorem aux_stepMR_done_of_exhausted (m : Nat) (cd sd : Option Int)
    (statement host : String) (st : LoopState) (env : AttemptEnv)
    (hm : m ≤ st.retries) :
    ∃ r, queryStepMR m cd sd statement host st env = .done r := by
  cases hs : queryStepMR m cd sd statement host st env with
  | done r => exact ⟨r, rfl⟩
  | next st' =>
      obtain ⟨hlt, _⟩ := aux_stepMR_next m cd sd statement host st env st' hs
      exact absurd hm (not_le.mpr hlt)

/-- The capped loop consumes at most `(m − retries) + 1` oracle
entries. -/
theorem aux_loopMR_consumed (m : Nat) (cd sd : Option Int)
    (statement host : String) :
    ∀ envs : List AttemptEnv, ∀ st : LoopState,
      envs.length -
        (queryLoopMR m cd sd statement host st envs).rest.length ≤
      (m - st.retries) + 1 := by
  intro envs
  induction envs with
  | nil =>
      intro st
      rw [queryLoopMR.eq_def]
      split
      all_goals simp
  | cons env rest ih =>
      intro st
      by_cases haddr : st.addrs = []
      · rw [queryLoopMR.eq_def]
        simp [haddr]
      · rw [aux_queryLoopMR_cons m cd sd statement host st env rest haddr]
        cases hs : queryStepMR m cd sd statement host st env with
        | done r => simp
        | next st' =>
            obtain ⟨hlt, hret⟩ :=
              aux_stepMR_next m cd sd statement host st env st' hs
            have hrec := ih st'
            rw [hret] at hrec
            simp only [List.length_cons]
            omega

/-- C8 (modelled from the spec — see `queryStepMR`): with a configured
cap `m`, a call starting at `retries = 0` performs at most `m + 1`
attempts in total, i.e. at most `m` retries; with `m = 0` every outcome
of the first attempt resolves the call immediately (no retry is ever
performed); and on exhaustion the current attempt's classified error —
the last classified error — is surfaced as the fatal result. -/
theorem claim8_max_retries (m : Nat) (cd sd : Option Int)
    (statement host : String) :
    (∀ st envs, st.retries = 0 →
      envs.length -
        (queryLoopMR m cd sd statement host st envs).rest.length ≤ m + 1)
    ∧ (∀ st env rest, st.retries = 0 → st.addrs ≠ [] →
        ∃ r, queryLoopMR 0 cd sd statement host st (env :: rest) =
          ⟨.finished r, rest⟩)
    ∧ (∀ st env status body cErr, m ≤ st.retries →
        env.outcome = .httpError status body →
        parseAnalyticsErrorResponse body statement host status
          st.lastCode st.lastMessage = some cErr →
        queryStepMR m cd sd statement host st env = .done (.fatal cErr)) := by
  refine ⟨?_, ?_, ?_⟩
  · intro st envs h0
    have := aux_loopMR_consumed m cd sd statement host envs st
    rw [h0] at this
    simpa using this
  · intro st env rest h0 haddr
    obtain ⟨r, hr⟩ := aux_stepMR_done_of_exhausted 0 cd sd statement host st env
      (by omega)
    rw [aux_queryLoopMR_cons 0 cd sd statement host st env rest haddr, hr]
    exact ⟨r, rfl⟩
  · intro st env status body cErr hm houtcome hparse
    obtain ⟨pick, outcome, b, n1, n2⟩ := env
    simp only at houtcome
    subst houtcome
    cases hb : (isAnalyticsErrorRetriable cErr).2 with
    | false => simp [queryStepMR, hparse, hb]
    | true => simp [queryStepMR, hparse, hb, hm]

/-- Witness for `claim8_max_retries`: with cap 0, a retriable server
error on the first attempt is surfaced immediately. -/
theorem claim8_witness :
    queryStepMR 0 none none "stmt" "host"
      ⟨["10.0.0.1"], [], some [], 0, 5, "x", .nilErr⟩
      ⟨0, .httpError 500 (.withErrors "t" [⟨25000, "boom", true⟩]), 1, 0, 0⟩ =
      .done (.fatal (withErrors
        (withErrorText
          (withLastDetail (newAnalyticsError .analytics "stmt" "host" 500) 5 "x")
          "t")
        [⟨25000, "boom", true⟩])) :=
  (claim8_max_retries 0 none none "stmt" "host").2.2
    ⟨["10.0.0.1"], [], some [], 0, 5, "x", .nilErr⟩
    ⟨0, .httpError 500 (.withErrors "t" [⟨25000, "boom", true⟩]), 1, 0, 0⟩
    500 (.withErrors "t" [⟨25000, "boom", true⟩])
    (withErrors
      (withErrorText
        (withLastDetail (newAnalyticsError .analytics "stmt" "host" 500) 5 "x")
        "t")
      [⟨25000, "boom", true⟩])
    (Nat.le_refl 0) rfl rfl

/-- C4 counterexample: the errors list
`[(code 1, retriable false), (code 21002, retriable true)]` contains an
entry with code 21002, yet the resulting public error's wrapped cause is
the generic `ErrQuery`, not `ErrTimeout` — the dispatch is on the code
of the first non-retriable entry (here code 1), not on "any entry". -/
theorem claim4_counterexample :
    translateClientError
      (.queryError .analytics "stmt" [⟨1, "a", false⟩, ⟨21002, "t", true⟩]
        0 "" "ep" "" 500) =
      .queryErr (withPubErrors
        (newPubQueryError .query "stmt" "ep" 500 1 "a")
        [⟨1, "a"⟩, ⟨21002, "t"⟩]) ∧
    (withPubErrors (newPubQueryError .query "stmt" "ep" 500 1 "a")
      [⟨1, "a"⟩, ⟨21002, "t"⟩]).cause.cause ≠ PubErr.timeout := by
  refine ⟨rfl, fun h => ?_⟩
  exact PubErr.noConfusion h

/-- C4 (amended): for every non-empty server errors list, the resulting
public error carries the desc array in the server's order (with the
`retriable` flag dropped), and its wrapped cause is selected by the code
of the SELECTED entry — the first entry with `retriable = false`, or the
first entry when all are retriable — as: 20000 → invalid-credential,
21002 → timeout, 23000 → service-unavailable; any other selected code
yields the generic query error, overridden by the client error's inner
cause when that is a timeout, cancellation, or deadline-exceeded. -/
theorem claim4_cause_selection (inner : GoErr) (stmt ep et : String)
    (lc : Nat) (lm : String) (status : Nat) (e0 : ErrorDesc)
    (es : List ErrorDesc) :
    translateClientError
      (.queryError inner stmt (e0 :: es) lc lm ep et status) =
      .queryErr (withPubErrors
        (newPubQueryError
          (if (selectedDesc e0 es).code = 20000 then .invalidCredential
           else if (selectedDesc e0 es).code = 21002 then .timeout
           else if (selectedDesc e0 es).code = 23000 then .serviceUnavailable
           else if goErrIs inner .timeout then .timeout
           else if goErrIs inner .canceled then .canceled
           else if goErrIs inner .deadlineExceeded then .deadlineExceeded
           else .query)
          stmt ep status (selectedDesc e0 es).code
          (selectedDesc e0 es).message)
        ((e0 :: es).map (fun d => ⟨d.code, d.message⟩))) := by
  unfold translateClientError selectedDesc
  simp only [firstQueryError, errsOf, stmtOf, endpointOf, statusOf, innerOf]
  cases hf : (e0 :: es).find? (fun d => !d.retry) with
  | none =>
      simp only [hf, Option.getD_none]
      split_ifs <;> rfl
  | some f =>
      simp only [hf, Option.getD_some]
      split_ifs <;> rfl

end Gocbanalytics
